import Mathlib

/-!
# Plugin registry of trpc-go (`plugin/plugin.go`)

A shallow embedding of the package-level registry

    var plugins = make(map[string]map[string]Factory)

and of the four functions working on it: `Register`, `RegisterWithValidation`,
`Get` and `GetWithError`.

Modelling choices.

* A Go `map[string]V` is modelled by its lookup function `String → Option V`:
  `none` is "key absent", `some v` is "key present with value `v`".  A present
  key may hold the zero value of `V`, so presence and value are kept apart.
* A value of the interface type `Factory` is either the nil interface (`none`)
  or a concrete implementation (`some impl`).  `Type()` of an implementation
  returns, and returns the same string at every call (implementations live
  outside the package; the ones of the tests return a constant); `ident`
  tells two instances of one type apart (the pointer identity of
  `&mockPlugin{}` in the tests).
* Calling a method on the nil interface panics; the functions that call
  `f.Type()` therefore run in `Except Panic`.  A non-nil interface value whose
  `Type()` panics (a nil pointer of a type whose `Type()` has a value
  receiver) is not among the modelled values: what is stated of a non-nil
  factory is stated of one whose `Type()` returns.
* The global variable `plugins` is passed explicitly: a mutating function
  returns the registry after the call.
* An `error` is modelled by the place that built it together with the
  arguments given to `fmt.Errorf`; `PluginError.Error` renders the message.
  The verb `%q` (Go's `strconv.Quote`) is library code and is a parameter of
  the rendering.
-/

namespace Plugin

/-- A concrete implementation of the `Factory` interface. -/
structure Impl where
  /-- Identity of the instance. -/
  ident : Nat
  /-- What the method `Type()` returns. -/
  typ : String
  deriving DecidableEq, Repr

/-- A value of interface type `Factory`; `none` is the nil interface. -/
abbrev Factory := Option Impl

/-- The inner map `map[string]Factory`: plugin name => plugin factory. -/
abbrev Factories := String → Option Factory

/-- The registry `map[string]map[string]Factory`:
plugin type => { plugin name => plugin factory }. -/
abbrev Plugins := String → Option Factories

/-- Runtime panics the registry code can raise. -/
inductive Panic where
  /-- Method call through a nil interface value. -/
  | nilDereference
  deriving DecidableEq, Repr

/-- The errors built by the package, one constructor per `errors.New` or
`fmt.Errorf` call site (equal message texts share a constructor). -/
inductive PluginError where
  /-- The text "plugin name cannot be empty". -/
  | nameEmpty
  /-- The text "plugin factory cannot be nil". -/
  | factoryNil
  /-- The text "plugin type cannot be empty". -/
  | typeEmpty
  /-- The format "plugin %q of type %q is already registered". -/
  | alreadyRegistered (name pluginType : String)
  /-- The format "no plugins registered for type %q". -/
  | noPluginsForType (typ : String)
  /-- The format "plugin %q of type %q not found". -/
  | notFound (name typ : String)
  deriving DecidableEq, Repr

/-- The message of an error, `err.Error()`; `q` renders the verb `%q`. -/
def PluginError.Error (q : String → String) : PluginError → String
  | .nameEmpty => "plugin name cannot be empty"
  | .factoryNil => "plugin factory cannot be nil"
  | .typeEmpty => "plugin type cannot be empty"
  | .alreadyRegistered name pluginType =>
      "plugin " ++ q name ++ " of type " ++ q pluginType ++ " is already registered"
  | .noPluginsForType typ => "no plugins registered for type " ++ q typ
  | .notFound name typ => "plugin " ++ q name ++ " of type " ++ q typ ++ " not found"

/-- The text `sub` occurs in `msg` (what `assert.Contains` tests). -/
def Mentions (msg sub : String) : Prop := sub.data <:+: msg.data

/-- A freshly made map, `make(map[string]V)`. -/
def emptyMap {V : Type} : String → Option V := fun _ => none

/-- The assignment `m[k] = v`. -/
def mapSet {V : Type} (m : String → Option V) (k : String) (v : V) : String → Option V :=
  fun k' => if k' = k then some v else m k'

/-- The method call `f.Type()`: it panics on the nil interface. -/
def Factory.callType : Factory → Except Panic String
  | none => .error .nilDereference
  | some impl => .ok impl.typ

/-- The function `Register`.  The inner map is a reference: after
`plugins[f.Type()] = factories` the assignment `factories[name] = f` is seen
through the registry, which the last line writes out. -/
def Register (plugins : Plugins) (name : String) (f : Factory) : Except Panic Plugins := do
  let t ← f.callType
  match plugins t with
  | some factories =>
      pure (mapSet plugins t (mapSet factories name f))
  | none =>
      let factories : Factories := emptyMap
      let t' ← f.callType
      let plugins' := mapSet plugins t' factories
      pure (mapSet plugins' t' (mapSet factories name f))

/-- The function `RegisterWithValidation`: the registry after the call and the
returned error (`none` is the nil error). -/
def RegisterWithValidation (plugins : Plugins) (name : String) (f : Factory) :
    Except Panic (Plugins × Option PluginError) := do
  if name = "" then
    return (plugins, some .nameEmpty)
  if f = none then
    return (plugins, some .factoryNil)
  let pluginType ← f.callType
  if pluginType = "" then
    return (plugins, some .typeEmpty)
  let (factories, plugins') :=
    match plugins pluginType with
    | some factories => (factories, plugins)
    | none => ((emptyMap : Factories), mapSet plugins pluginType (emptyMap : Factories))
  if (factories name).isSome then
    return (plugins', some (.alreadyRegistered name pluginType))
  return (mapSet plugins' pluginType (mapSet factories name f), none)

/-- The function `Get`: indexing a missing key (also of a nil inner map) gives
the zero value, the nil factory. -/
def Get (plugins : Plugins) (typ name : String) : Factory :=
  match plugins typ with
  | none => none
  | some factories =>
      match factories name with
      | none => none
      | some f => f

/-- The function `GetWithError`. -/
def GetWithError (plugins : Plugins) (typ name : String) : Factory × Option PluginError :=
  if typ = "" then (none, some .typeEmpty)
  else if name = "" then (none, some .nameEmpty)
  else
    match plugins typ with
    | none => (none, some (.noPluginsForType typ))
    | some factories =>
        match factories name with
        | none => (none, some (.notFound name typ))
        | some factory => (factory, none)

/-- The registry at process start. -/
def initPlugins : Plugins := emptyMap

/-- The registry has a bucket for the category `typ`. -/
def HasBucket (plugins : Plugins) (typ : String) : Prop := (plugins typ).isSome = true

/-- The registry has an entry under the key `(typ, name)`. -/
def HasEntry (plugins : Plugins) (typ name : String) : Prop :=
  ∃ factories, plugins typ = some factories ∧ (factories name).isSome = true

/-- The registries the program can be in: starting from the empty registry,
any number of calls of `Register` and `RegisterWithValidation` that return
(a call that panics ends the program). -/
inductive Reachable : Plugins → Prop where
  | init : Reachable initPlugins
  | register {plugins plugins' : Plugins} (name : String) (f : Factory) :
      Reachable plugins → Register plugins name f = .ok plugins' → Reachable plugins'
  | registerWithValidation {plugins plugins' : Plugins} {err : Option PluginError}
      (name : String) (f : Factory) :
      Reachable plugins → RegisterWithValidation plugins name f = .ok (plugins', err) →
      Reachable plugins'

/-- No present key of an inner map holds the nil factory. -/
def NoNilStored (plugins : Plugins) : Prop :=
  ∀ typ factories name, plugins typ = some factories → factories name ≠ some none

/-- A call of one of the four exported functions. -/
inductive Op where
  | register (name : String) (f : Factory)
  | registerWithValidation (name : String) (f : Factory)
  | get (typ name : String)
  | getWithError (typ name : String)
  deriving DecidableEq, Repr

/-- What a call hands back to its caller. -/
inductive Reply where
  /-- The function `Register` has no result. -/
  | done
  | error (err : Option PluginError)
  | factory (f : Factory)
  | factoryError (f : Factory) (err : Option PluginError)
  deriving DecidableEq, Repr

/-- One call against the global registry: the registry after the call and the
reply.  `Get` and `GetWithError` contain no assignment, and a Go index
expression on a map does not insert the key it misses, so the registry they
leave is the one they found. -/
def call (plugins : Plugins) : Op → Except Panic (Plugins × Reply)
  | .register name f => do
      let plugins' ← Register plugins name f
      pure (plugins', .done)
  | .registerWithValidation name f => do
      let (plugins', err) ← RegisterWithValidation plugins name f
      pure (plugins', .error err)
  | .get typ name => pure (plugins, .factory (Get plugins typ name))
  | .getWithError typ name =>
      let (f, err) := GetWithError plugins typ name
      pure (plugins, .factoryError f err)

/-- A sequence of calls, one after the other, with the replies in order. -/
def callAll (plugins : Plugins) : List Op → Except Panic (Plugins × List Reply)
  | [] => pure (plugins, [])
  | op :: ops => do
      let (plugins', reply) ← call plugins op
      let (plugins'', replies) ← callAll plugins' ops
      pure (plugins'', reply :: replies)

/-- The key `(typ, name)` is present and holds the factory `f`. -/
def Holds (plugins : Plugins) (typ name : String) (f : Factory) : Prop :=
  ∃ factories, plugins typ = some factories ∧ factories name = some f

/-- The call is not the best-effort `Register`: it is a lookup or a
registration through `RegisterWithValidation`. -/
def Op.validating : Op → Bool
  | .register _ _ => false
  | .registerWithValidation _ _ => true
  | .get _ _ => true
  | .getWithError _ _ => true

/-- Every stored factory sits in the bucket of its own `Type()`. -/
def TypeConsistent (plugins : Plugins) : Prop :=
  ∀ typ factories name impl, plugins typ = some factories →
    factories name = some (some impl) → impl.typ = typ

/-- Every bucket of the registry has at least one entry. -/
def NoEmptyBucket (plugins : Plugins) : Prop :=
  ∀ typ factories, plugins typ = some factories → ∃ name, (factories name).isSome = true

end Plugin

/-!
# Codec registry (`codec/codec.go`)

The sources hold the tests of the codec package and not the package, so the
registry is written down from its specification.
-/

namespace Codec

/-- Modelled from the spec: the encoder and decoder implementations of
`codec/codec.go`, which is missing from the sources.  An implementation is an
opaque value with the capability `Encode`/`Decode`; the registry "never
inspects their behavior, only stores and returns them", so only its identity
is kept. -/
structure Handler where
  /-- Identity of the instance. -/
  ident : Nat
  deriving DecidableEq, Repr

/-- Modelled from the spec: the type `CodecEntry` of the missing
`codec/codec.go`, "a pair `(encoder, decoder)`". -/
structure CodecEntry where
  encoder : Handler
  decoder : Handler
  deriving DecidableEq, Repr

/-- Modelled from the spec: the codec registry state of the missing
`codec/codec.go`, "`name -> CodecEntry`, flat". -/
abbrev Codecs := String → Option CodecEntry

/-- Modelled from the spec: the error kinds of the missing `codec/codec.go`,
"`InvalidArgument` (empty identifier ...), `AlreadyRegistered` (duplicate key
in a validating registration), `NotFound` (lookup miss in an error-returning
accessor)".  The spec gives no message texts for the codec registry. -/
inductive CodecError where
  | invalidArgument
  | alreadyRegistered
  | notFound
  deriving DecidableEq, Repr

/-- Modelled from the spec: the codec registry at process start of the missing
`codec/codec.go`, "created once at process start (empty)". -/
def initCodecs : Codecs := Plugin.emptyMap

/-- Modelled from the spec: the function `Register` of the missing
`codec/codec.go`, which "unconditionally stores the pair under `name`,
overwriting any prior entry" and "returns no error in the best-effort path".
The result is the registry after the call and the error, always nil. -/
def Register (codecs : Codecs) (name : String) (encoder decoder : Handler) :
    Codecs × Option CodecError :=
  (Plugin.mapSet codecs name ⟨encoder, decoder⟩, none)

/-- Modelled from the spec: the function `RegisterWithValidation` of the
missing `codec/codec.go`, which "fails with `InvalidArgument` when `name` is
empty; fails with `AlreadyRegistered` when `name` already has an entry;
otherwise stores and succeeds". -/
def RegisterWithValidation (codecs : Codecs) (name : String) (encoder decoder : Handler) :
    Codecs × Option CodecError :=
  if name = "" then (codecs, some .invalidArgument)
  else if (codecs name).isSome then (codecs, some .alreadyRegistered)
  else (Plugin.mapSet codecs name ⟨encoder, decoder⟩, none)

/-- Modelled from the spec: the function `GetServer` of the missing
`codec/codec.go`, "best-effort: returns the stored encoder/decoder pair ...
(both variants currently return the identical pair ...) or a nil/absent value
when `name` is unknown.  No error signaled."  The second component is the
error, always nil. -/
def GetServer (codecs : Codecs) (name : String) : Option CodecEntry × Option CodecError :=
  (codecs name, none)

/-- Modelled from the spec: the function `GetClient` of the missing
`codec/codec.go`; the spec gives it the words of `GetServer`. -/
def GetClient (codecs : Codecs) (name : String) : Option CodecEntry × Option CodecError :=
  (codecs name, none)

/-- Modelled from the spec: the function `GetServerWithError` of the missing
`codec/codec.go`, which "returns `NotFound` when `name` is unknown; otherwise
returns the entry". -/
def GetServerWithError (codecs : Codecs) (name : String) :
    Option CodecEntry × Option CodecError :=
  match codecs name with
  | none => (none, some .notFound)
  | some entry => (some entry, none)

/-- Modelled from the spec: the function `GetClientWithError` of the missing
`codec/codec.go`; the spec gives it the words of `GetServerWithError`. -/
def GetClientWithError (codecs : Codecs) (name : String) :
    Option CodecEntry × Option CodecError :=
  match codecs name with
  | none => (none, some .notFound)
  | some entry => (some entry, none)

end Codec

namespace Plugin

/-! ## Basic facts about maps -/

theorem mapSet_same {V : Type} (m : String → Option V) (k : String) (v : V) :
    mapSet m k v k = some v := by
  simp [mapSet]

theorem mapSet_other {V : Type} (m : String → Option V) (k k' : String) (v : V)
    (h : k' ≠ k) : mapSet m k v k' = m k' := by
  simp [mapSet, h]

theorem mapSet_mapSet {V : Type} (m : String → Option V) (k : String) (v w : V) :
    mapSet (mapSet m k v) k w = mapSet m k w := by
  funext k'
  by_cases h : k' = k <;> simp [mapSet, h]

/-- What `Register` computes for a non-nil factory. -/
theorem Register_some (plugins : Plugins) (name : String) (impl : Impl) :
    Register plugins name (some impl) =
      .ok (mapSet plugins impl.typ
        (mapSet ((plugins impl.typ).getD emptyMap) name (some impl))) := by
  unfold Register
  cases h : plugins impl.typ with
  | none =>
      simp [Factory.callType, bind, Except.bind, pure, Except.pure, h, mapSet_mapSet]
  | some factories =>
      simp [Factory.callType, bind, Except.bind, pure, Except.pure, h]

/-- Lookup after a write to the registry, at the written key. -/
theorem Get_mapSet_same (plugins : Plugins) (factories : Factories) (typ name : String)
    (f : Factory) :
    Get (mapSet plugins typ (mapSet factories name f)) typ name = f := by
  simp [Get, mapSet]

/-- What `RegisterWithValidation` computes, check by check. -/
theorem RegisterWithValidation_eq (plugins : Plugins) (name : String) (f : Factory) :
    RegisterWithValidation plugins name f =
      .ok (if name = "" then (plugins, some .nameEmpty)
        else match f with
          | none => (plugins, some .factoryNil)
          | some impl =>
              if impl.typ = "" then (plugins, some .typeEmpty)
              else match plugins impl.typ with
                | none => (mapSet plugins impl.typ (mapSet emptyMap name (some impl)), none)
                | some factories =>
                    if (factories name).isSome then
                      (plugins, some (.alreadyRegistered name impl.typ))
                    else (mapSet plugins impl.typ (mapSet factories name (some impl)), none)) := by
  unfold RegisterWithValidation
  by_cases hn : name = ""
  · simp [hn, bind, Except.bind, pure, Except.pure]
  · cases f with
    | none => simp [hn, bind, Except.bind, pure, Except.pure]
    | some impl =>
        by_cases ht : impl.typ = ""
        · simp [hn, ht, Factory.callType, bind, Except.bind, pure, Except.pure]
        · cases hb : plugins impl.typ with
          | none =>
              simp [hn, ht, hb, Factory.callType, bind, Except.bind, pure, Except.pure,
                emptyMap, mapSet_mapSet]
          | some factories =>
              by_cases he : (factories name).isSome = true
              · simp [hn, ht, hb, he, Factory.callType, bind, Except.bind, pure, Except.pure]
              · simp [hn, ht, hb, he, Factory.callType, bind, Except.bind, pure, Except.pure]

/-! ## The texts of the error messages -/

theorem noPluginsForType_mentions (q : String → String) (typ : String) :
    Mentions (PluginError.Error q (.noPluginsForType typ)) "no plugins registered" := by
  refine ⟨[], " for type ".data ++ (q typ).data, ?_⟩
  simp [PluginError.Error, String.data_append]

theorem notFound_mentions (q : String → String) (name typ : String) :
    Mentions (PluginError.Error q (.notFound name typ)) "not found" := by
  refine ⟨("plugin " ++ q name ++ " of type " ++ q typ ++ " ").data, [], ?_⟩
  simp [PluginError.Error, String.data_append]

theorem alreadyRegistered_mentions (q : String → String) (name typ : String) :
    Mentions (PluginError.Error q (.alreadyRegistered name typ)) "already registered" := by
  refine ⟨("plugin " ++ q name ++ " of type " ++ q typ ++ " is ").data, [], ?_⟩
  simp [PluginError.Error, String.data_append]

theorem notFound_ne_noPluginsForType (q : String → String) (name typ typ' : String) :
    PluginError.Error q (.notFound name typ) ≠ PluginError.Error q (.noPluginsForType typ') := by
  intro h
  have h' := congrArg String.data h
  simp [PluginError.Error, String.data_append] at h'

/-! ## Entries of the registry after a registration -/

theorem hasEntry_mapSet (plugins : Plugins) (factories : Factories) (typ name : String)
    (f : Factory) : HasEntry (mapSet plugins typ (mapSet factories name f)) typ name :=
  ⟨mapSet factories name f, mapSet_same _ _ _, by simp [mapSet]⟩

theorem Get_mapSet_other (plugins : Plugins) (factories : Factories) (typ name c n : String)
    (f : Factory) (hb : plugins typ = none → factories = emptyMap)
    (hs : ∀ b, plugins typ = some b → factories = b) (h : ¬ (c = typ ∧ n = name)) :
    Get (mapSet plugins typ (mapSet factories name f)) c n = Get plugins c n := by
  by_cases hc : c = typ
  · subst hc
    have hn : n ≠ name := fun e => h ⟨rfl, e⟩
    cases hp : plugins c with
    | none => simp [Get, mapSet, hn, hp, hb hp, emptyMap]
    | some b => simp [Get, mapSet, hn, hp, hs b hp]
  · simp [Get, mapSet, hc]

/-- A failing `RegisterWithValidation` returns the registry it was given. -/
theorem RegisterWithValidation_error_state (plugins plugins' : Plugins) (name : String)
    (f : Factory) (e : PluginError)
    (h : RegisterWithValidation plugins name f = .ok (plugins', some e)) :
    plugins' = plugins := by
  rw [RegisterWithValidation_eq] at h
  by_cases hn : name = ""
  · simp [hn] at h
    exact h.1.symm
  · cases f with
    | none =>
        simp [hn] at h
        exact h.1.symm
    | some impl =>
        by_cases ht : impl.typ = ""
        · simp [hn, ht] at h
          exact h.1.symm
        · cases hb : plugins impl.typ with
          | none => simp [hn, ht, hb] at h
          | some factories =>
              by_cases he : (factories name).isSome = true
              · simp [hn, ht, hb, he] at h
                exact h.1.symm
              · simp [hn, ht, hb, he] at h

/-- A successful `RegisterWithValidation` had a non-nil factory of non-empty
type and a non-empty name, found the key free, and wrote the entry. -/
theorem RegisterWithValidation_ok (plugins plugins' : Plugins) (name : String) (f : Factory)
    (h : RegisterWithValidation plugins name f = .ok (plugins', none)) :
    ∃ impl, f = some impl ∧ name ≠ "" ∧ impl.typ ≠ "" ∧ ¬ HasEntry plugins impl.typ name ∧
      plugins' = mapSet plugins impl.typ
        (mapSet ((plugins impl.typ).getD emptyMap) name (some impl)) := by
  rw [RegisterWithValidation_eq] at h
  by_cases hn : name = ""
  · simp [hn] at h
  · cases f with
    | none => simp [hn] at h
    | some impl =>
        by_cases ht : impl.typ = ""
        · simp [hn, ht] at h
        · cases hb : plugins impl.typ with
          | none =>
              simp [hn, ht, hb] at h
              exact ⟨impl, rfl, hn, ht, by simp [HasEntry, hb], by simp [hb, h]⟩
          | some factories =>
              by_cases he : (factories name).isSome = true
              · simp [hn, ht, hb, he] at h
              · simp [hn, ht, hb, he] at h
                exact ⟨impl, rfl, hn, ht, by simp [HasEntry, hb, he], by simp [hb, h]⟩

/-- Writing a non-nil factory keeps the registry free of stored nils. -/
theorem noNilStored_mapSet (plugins : Plugins) (typ name : String) (impl : Impl)
    (h : NoNilStored plugins) :
    NoNilStored (mapSet plugins typ
      (mapSet ((plugins typ).getD emptyMap) name (some impl))) := by
  intro t b n hb
  by_cases ht : t = typ
  · subst ht
    rw [mapSet_same] at hb
    cases hb
    by_cases hn : n = name
    · simp [mapSet, hn]
    · rw [mapSet_other _ _ _ _ hn]
      cases hp : plugins t with
      | none => simp [emptyMap]
      | some b0 => simpa using h t b0 n hp
  · rw [mapSet_other _ _ _ _ ht] at hb
    exact h t b n hb

/-- A registry the program can be in stores no nil factory: `Register` panics
on one before it writes and `RegisterWithValidation` turns it down. -/
theorem reachable_noNilStored {plugins : Plugins} (h : Reachable plugins) :
    NoNilStored plugins := by
  induction h with
  | init =>
      intro t b n hb
      simp [initPlugins, emptyMap] at hb
  | register name f _ hr ih =>
      cases f with
      | none => simp [Register, Factory.callType, bind, Except.bind] at hr
      | some impl =>
          rw [Register_some] at hr
          cases hr
          exact noNilStored_mapSet _ _ _ _ ih
  | @registerWithValidation plugins plugins' err name f _ hr ih =>
      cases err with
      | some e =>
          rw [RegisterWithValidation_error_state _ _ _ _ _ hr]
          exact ih
      | none =>
          obtain ⟨impl, _, _, _, _, hp⟩ := RegisterWithValidation_ok _ _ _ _ hr
          rw [hp]
          exact noNilStored_mapSet _ _ _ _ ih

/-! ## One call and its effect on the registry -/

/-- `Register` returns exactly for a non-nil factory. -/
theorem Register_ok (plugins plugins' : Plugins) (name : String) (f : Factory)
    (h : Register plugins name f = .ok plugins') :
    ∃ impl, f = some impl ∧
      plugins' = mapSet plugins impl.typ
        (mapSet ((plugins impl.typ).getD emptyMap) name (some impl)) := by
  cases f with
  | none => simp [Register, Factory.callType, bind, Except.bind] at h
  | some impl =>
      rw [Register_some] at h
      cases h
      exact ⟨impl, rfl, rfl⟩

/-- A call that returns left the registry alone or wrote one non-nil factory
under its own type; a validated registration writes only to a free key. -/
theorem call_ok (plugins p1 : Plugins) (op : Op) (reply : Reply)
    (h : call plugins op = .ok (p1, reply)) :
    p1 = plugins ∨
    ∃ name impl,
      p1 = mapSet plugins impl.typ
        (mapSet ((plugins impl.typ).getD emptyMap) name (some impl)) ∧
      (op = .register name (some impl) ∨
        (op = .registerWithValidation name (some impl) ∧
          ¬ HasEntry plugins impl.typ name)) := by
  cases op with
  | register name f =>
      cases hr : Register plugins name f with
      | error e => simp [call, hr, bind, Except.bind] at h
      | ok p =>
          simp [call, hr, bind, Except.bind, pure, Except.pure] at h
          obtain ⟨impl, hf, hp⟩ := Register_ok _ _ _ _ hr
          subst hf
          exact Or.inr ⟨name, impl, by rw [← h.1, hp], Or.inl rfl⟩
  | registerWithValidation name f =>
      cases hr : RegisterWithValidation plugins name f with
      | error e => simp [call, hr, bind, Except.bind] at h
      | ok res =>
          obtain ⟨p, err⟩ := res
          simp [call, hr, bind, Except.bind, pure, Except.pure] at h
          cases err with
          | some e =>
              left
              rw [← h.1]
              exact RegisterWithValidation_error_state _ _ _ _ _ hr
          | none =>
              obtain ⟨impl, hf, _, _, hfree, hp⟩ := RegisterWithValidation_ok _ _ _ _ hr
              subst hf
              exact Or.inr ⟨name, impl, by rw [← h.1, hp], Or.inr ⟨rfl, hfree⟩⟩
  | get typ name =>
      simp [call, pure, Except.pure] at h
      exact Or.inl h.1.symm
  | getWithError typ name =>
      simp [call, pure, Except.pure] at h
      exact Or.inl h.1.symm

/-- After a run of calls that all return, the program is in a registry it can
be in. -/
theorem callAll_reachable (ops : List Op) :
    ∀ (plugins p1 : Plugins) (replies : List Reply), Reachable plugins →
      callAll plugins ops = .ok (p1, replies) → Reachable p1 := by
  induction ops with
  | nil =>
      intro plugins p1 replies hr h
      simp [callAll, pure, Except.pure] at h
      rw [← h.1]
      exact hr
  | cons op ops ih =>
      intro plugins p1 replies hr h
      cases hc : call plugins op with
      | error e => simp [callAll, hc, bind, Except.bind] at h
      | ok res =>
          obtain ⟨p, reply⟩ := res
          cases hrest : callAll p ops with
          | error e => simp [callAll, hc, hrest, bind, Except.bind] at h
          | ok res2 =>
              obtain ⟨p2, rs⟩ := res2
              simp [callAll, hc, hrest, bind, Except.bind, pure, Except.pure] at h
              rw [← h.1]
              refine ih p p2 rs ?_ hrest
              cases op with
              | register name f =>
                  cases hR : Register plugins name f with
                  | error e => simp [call, hR, bind, Except.bind] at hc
                  | ok q =>
                      simp [call, hR, bind, Except.bind, pure, Except.pure] at hc
                      rw [← hc.1]
                      exact Reachable.register name f hr hR
              | registerWithValidation name f =>
                  cases hR : RegisterWithValidation plugins name f with
                  | error e => simp [call, hR, bind, Except.bind] at hc
                  | ok res3 =>
                      obtain ⟨q, err⟩ := res3
                      simp [call, hR, bind, Except.bind, pure, Except.pure] at hc
                      rw [← hc.1]
                      exact Reachable.registerWithValidation name f hr hR
              | get typ name =>
                  simp [call, pure, Except.pure] at hc
                  rw [← hc.1]
                  exact hr
              | getWithError typ name =>
                  simp [call, pure, Except.pure] at hc
                  rw [← hc.1]
                  exact hr

/-- Splitting a run of calls at its first call. -/
theorem callAll_cons_ok (plugins p2 : Plugins) (op : Op) (ops : List Op)
    (replies : List Reply) (h : callAll plugins (op :: ops) = .ok (p2, replies)) :
    ∃ p1 reply rest, call plugins op = .ok (p1, reply) ∧
      callAll p1 ops = .ok (p2, rest) ∧ replies = reply :: rest := by
  cases hc : call plugins op with
  | error e => simp [callAll, hc, bind, Except.bind] at h
  | ok res =>
      obtain ⟨p, reply⟩ := res
      cases hrest : callAll p ops with
      | error e => simp [callAll, hc, hrest, bind, Except.bind] at h
      | ok res2 =>
          obtain ⟨q, rs⟩ := res2
          simp [callAll, hc, hrest, bind, Except.bind, pure, Except.pure] at h
          exact ⟨p, reply, rs, rfl, by rw [← h.1]; exact hrest, h.2.symm⟩

/-- A write keeps the buckets there are. -/
theorem hasBucket_write (plugins : Plugins) (typ : String) (factories : Factories)
    (c : String) (h : HasBucket plugins c) :
    HasBucket (mapSet plugins typ factories) c := by
  unfold HasBucket at *
  by_cases hc : c = typ
  · simp [mapSet, hc]
  · simpa [mapSet, hc] using h

/-- A write keeps the entries there are. -/
theorem hasEntry_write (plugins : Plugins) (typ name : String) (f : Factory)
    (c n : String) (h : HasEntry plugins c n) :
    HasEntry (mapSet plugins typ (mapSet ((plugins typ).getD emptyMap) name f)) c n := by
  obtain ⟨b, hb, hn⟩ := h
  by_cases hc : c = typ
  · subst hc
    refine ⟨_, mapSet_same _ _ _, ?_⟩
    by_cases hnn : n = name
    · simp [mapSet, hnn]
    · simpa [mapSet, hnn, hb] using hn
  · exact ⟨b, by simpa [mapSet, hc] using hb, hn⟩

/-- A write to a free key keeps what every present key holds. -/
theorem holds_write_free (plugins : Plugins) (typ name : String) (f g : Factory)
    (c n : String) (hfree : ¬ HasEntry plugins typ name) (h : Holds plugins c n g) :
    Holds (mapSet plugins typ (mapSet ((plugins typ).getD emptyMap) name f)) c n g := by
  obtain ⟨b, hb, hn⟩ := h
  by_cases hc : c = typ
  · subst hc
    refine ⟨_, mapSet_same _ _ _, ?_⟩
    by_cases hnn : n = name
    · subst hnn
      exact absurd ⟨b, hb, by simp [hn]⟩ hfree
    · simpa [mapSet, hnn, hb] using hn
  · exact ⟨b, by simpa [mapSet, hc] using hb, hn⟩

/-- A call that returns keeps the buckets and the entries there are. -/
theorem call_grows (plugins p1 : Plugins) (op : Op) (reply : Reply)
    (h : call plugins op = .ok (p1, reply)) :
    (∀ c, HasBucket plugins c → HasBucket p1 c) ∧
    (∀ c n, HasEntry plugins c n → HasEntry p1 c n) := by
  rcases call_ok _ _ _ _ h with hp | ⟨name, impl, hp, _⟩
  · subst hp
    exact ⟨fun _ hc => hc, fun _ _ hc => hc⟩
  · subst hp
    exact ⟨fun c hc => hasBucket_write _ _ _ c hc, fun c n hc => hasEntry_write _ _ _ _ c n hc⟩

/-- A call other than the best-effort `Register` keeps what every present key
holds. -/
theorem call_validating_holds (plugins p1 : Plugins) (op : Op) (reply : Reply)
    (hv : op.validating = true) (h : call plugins op = .ok (p1, reply))
    (c n : String) (g : Factory) (hg : Holds plugins c n g) : Holds p1 c n g := by
  rcases call_ok _ _ _ _ h with hp | ⟨name, impl, hp, hop | ⟨_, hfree⟩⟩
  · subst hp
    exact hg
  · subst hop
    simp [Op.validating] at hv
  · subst hp
    exact holds_write_free _ _ _ _ _ c n hfree hg

/-- A run of calls without the best-effort `Register` keeps what every present
key holds. -/
theorem callAll_validating_holds (ops : List Op) :
    ∀ (plugins p2 : Plugins) (replies : List Reply),
      (∀ op ∈ ops, op.validating = true) → callAll plugins ops = .ok (p2, replies) →
      ∀ (c n : String) (g : Factory), Holds plugins c n g → Holds p2 c n g := by
  induction ops with
  | nil =>
      intro plugins p2 replies _ h c n g hg
      simp [callAll, pure, Except.pure] at h
      rw [← h.1]
      exact hg
  | cons op ops ih =>
      intro plugins p2 replies hv h c n g hg
      obtain ⟨p1, reply, rest, hc, hrest, _⟩ := callAll_cons_ok _ _ _ _ _ h
      exact ih p1 p2 rest (fun o ho => hv o (List.mem_cons_of_mem _ ho)) hrest c n g
        (call_validating_holds _ _ _ _ (hv op (List.mem_cons_self _ _)) hc c n g hg)

/-- Writing a factory under its own type keeps the buckets consistent. -/
theorem typeConsistent_write (plugins : Plugins) (name : String) (impl : Impl)
    (h : TypeConsistent plugins) :
    TypeConsistent (mapSet plugins impl.typ
      (mapSet ((plugins impl.typ).getD emptyMap) name (some impl))) := by
  intro t b n f hb hf
  by_cases ht : t = impl.typ
  · subst ht
    rw [mapSet_same] at hb
    cases hb
    by_cases hn : n = name
    · subst hn
      rw [mapSet_same] at hf
      cases hf
      rfl
    · rw [mapSet_other _ _ _ _ hn] at hf
      cases hp : plugins impl.typ with
      | none => simp [hp, emptyMap] at hf
      | some b0 =>
          rw [hp] at hf
          exact h _ b0 n f hp hf
  · rw [mapSet_other _ _ _ _ ht] at hb
    exact h t b n f hb hf

/-- A write leaves no bucket empty. -/
theorem noEmptyBucket_write (plugins : Plugins) (typ name : String) (f : Factory)
    (h : NoEmptyBucket plugins) :
    NoEmptyBucket (mapSet plugins typ
      (mapSet ((plugins typ).getD emptyMap) name f)) := by
  intro t b hb
  by_cases ht : t = typ
  · subst ht
    rw [mapSet_same] at hb
    cases hb
    exact ⟨name, by simp [mapSet]⟩
  · rw [mapSet_other _ _ _ _ ht] at hb
    exact h t b hb

/-- A registry the program can be in has every factory in the bucket of its
own type and has no empty bucket. -/
theorem reachable_invariants {plugins : Plugins} (h : Reachable plugins) :
    TypeConsistent plugins ∧ NoEmptyBucket plugins := by
  induction h with
  | init =>
      refine ⟨?_, ?_⟩
      · intro t b n f hb
        simp [initPlugins, emptyMap] at hb
      · intro t b hb
        simp [initPlugins, emptyMap] at hb
  | register name f _ hr ih =>
      obtain ⟨impl, hf, hp⟩ := Register_ok _ _ _ _ hr
      rw [hp]
      exact ⟨typeConsistent_write _ _ _ ih.1, noEmptyBucket_write _ _ _ _ ih.2⟩
  | @registerWithValidation plugins plugins' err name f _ hr ih =>
      cases err with
      | some e =>
          rw [RegisterWithValidation_error_state _ _ _ _ _ hr]
          exact ih
      | none =>
          obtain ⟨impl, _, _, _, _, hp⟩ := RegisterWithValidation_ok _ _ _ _ hr
          rw [hp]
          exact ⟨typeConsistent_write _ _ _ ih.1, noEmptyBucket_write _ _ _ _ ih.2⟩

/-! ## Properties of the registry -/

/-- C1: after `Register(name, f)` with a non-nil `f`, `Get(f.Type(), name)` is
`f`, whatever the key held before; after `Register(name, f1)` and then
`Register(name, f2)` with factories of one type, the lookup gives `f2`, and so
not `f1` when the two differ. -/
theorem register_get_roundtrip (plugins : Plugins) (name : String) (f1 f2 : Impl)
    (ht : f1.typ = f2.typ) :
    (∃ p1, Register plugins name (some f1) = .ok p1 ∧ Get p1 f1.typ name = some f1) ∧
    (∃ p1 p2, Register plugins name (some f1) = .ok p1 ∧
      Register p1 name (some f2) = .ok p2 ∧
      Get p2 f2.typ name = some f2 ∧ (f1 ≠ f2 → Get p2 f1.typ name ≠ some f1)) := by
  refine ⟨⟨_, Register_some _ _ _, Get_mapSet_same _ _ _ _ _⟩, ?_⟩
  refine ⟨_, _, Register_some _ _ _, Register_some _ _ _, Get_mapSet_same _ _ _ _ _, ?_⟩
  intro hne
  rw [ht, Get_mapSet_same]
  intro h
  exact hne (Option.some.inj h).symm

/-- C1, at the registration of the tests: two instances of one type under
`pluginName`. -/
theorem register_get_roundtrip_witness :
    (∃ p1, Register initPlugins "pluginName" (some ⟨1, "pluginType"⟩) = .ok p1 ∧
      Get p1 "pluginType" "pluginName" = some ⟨1, "pluginType"⟩) ∧
    (∃ p1 p2, Register initPlugins "pluginName" (some ⟨1, "pluginType"⟩) = .ok p1 ∧
      Register p1 "pluginName" (some ⟨2, "pluginType"⟩) = .ok p2 ∧
      Get p2 "pluginType" "pluginName" = some ⟨2, "pluginType"⟩ ∧
      ((⟨1, "pluginType"⟩ : Impl) ≠ ⟨2, "pluginType"⟩ →
        Get p2 "pluginType" "pluginName" ≠ some ⟨1, "pluginType"⟩)) :=
  register_get_roundtrip initPlugins "pluginName" ⟨1, "pluginType"⟩ ⟨2, "pluginType"⟩ rfl

/-- C2: `RegisterWithValidation(name, f)` returns (it does not panic), and it
returns an error exactly when the name is empty, or `f` is nil, or `f.Type()`
is empty, or the registry holds an entry under `(f.Type(), name)`; an entry
left there by `Register` or by a successful `RegisterWithValidation` counts. -/
theorem registerWithValidation_error_iff (plugins : Plugins) (name : String) (f : Factory) :
    (∃ plugins' err, RegisterWithValidation plugins name f = .ok (plugins', err) ∧
      (err ≠ none ↔
        (name = "" ∨ f = none ∨
          ∃ impl, f = some impl ∧ (impl.typ = "" ∨ HasEntry plugins impl.typ name)))) ∧
    (∀ impl p1, Register plugins name (some impl) = .ok p1 → HasEntry p1 impl.typ name) ∧
    (∀ impl p1, RegisterWithValidation plugins name (some impl) = .ok (p1, none) →
      HasEntry p1 impl.typ name) := by
  refine ⟨?_, ?_, ?_⟩
  · rw [RegisterWithValidation_eq]
    by_cases hn : name = ""
    · rw [if_pos hn]
      exact ⟨_, _, rfl, by simp [hn]⟩
    · rw [if_neg hn]
      cases f with
      | none => exact ⟨_, _, rfl, by simp [hn]⟩
      | some impl =>
          dsimp only
          by_cases ht : impl.typ = ""
          · rw [if_pos ht]
            exact ⟨_, _, rfl, by simp [hn, ht]⟩
          · rw [if_neg ht]
            cases hb : plugins impl.typ with
            | none => exact ⟨_, _, rfl, by simp [hn, ht, HasEntry, hb]⟩
            | some factories =>
                dsimp only
                by_cases he : (factories name).isSome = true
                · rw [if_pos he]
                  exact ⟨_, _, rfl, by simp [hn, ht, HasEntry, hb, he]⟩
                · rw [if_neg he]
                  exact ⟨_, _, rfl, by simp [hn, ht, HasEntry, hb, he]⟩
  · intro impl p1 h
    rw [Register_some] at h
    cases h
    exact hasEntry_mapSet _ _ _ _ _
  · intro impl p1 h
    rw [RegisterWithValidation_eq] at h
    by_cases hn : name = ""
    · simp [hn] at h
    · by_cases ht : impl.typ = ""
      · simp [hn, ht] at h
      · cases hb : plugins impl.typ with
        | none =>
            simp [hn, ht, hb] at h
            subst h
            exact hasEntry_mapSet _ _ _ _ _
        | some factories =>
            by_cases he : (factories name).isSome = true
            · simp [hn, ht, hb, he] at h
            · simp [hn, ht, hb, he] at h
              subst h
              exact hasEntry_mapSet _ _ _ _ _

/-- C3: a failing `RegisterWithValidation` leaves the registry as it was,
buckets included; and when a first validated registration of `name` succeeds,
a second one with a factory of the same type fails with the already-registered
error, whose message says so, and `Get` still gives the first factory. -/
theorem registerWithValidation_failure_atomic (plugins : Plugins) (name : String) :
    (∀ (f : Factory) (plugins' : Plugins) (e : PluginError),
      RegisterWithValidation plugins name f = .ok (plugins', some e) →
        plugins' = plugins ∧ ∀ c, HasBucket plugins' c ↔ HasBucket plugins c) ∧
    (∀ (f f2 : Impl) (p1 : Plugins), f2.typ = f.typ →
      RegisterWithValidation plugins name (some f) = .ok (p1, none) →
        RegisterWithValidation p1 name (some f2) =
          .ok (p1, some (.alreadyRegistered name f.typ)) ∧
        (∀ q, Mentions (PluginError.Error q (.alreadyRegistered name f.typ))
          "already registered") ∧
        Get p1 f.typ name = some f) := by
  refine ⟨?_, ?_⟩
  · intro f plugins' e h
    have := RegisterWithValidation_error_state _ _ _ _ _ h
    subst this
    exact ⟨rfl, fun _ => Iff.rfl⟩
  · intro f f2 p1 ht h
    obtain ⟨impl, hf, hn, hty, _, hp⟩ := RegisterWithValidation_ok _ _ _ _ h
    cases hf
    refine ⟨?_, fun q => alreadyRegistered_mentions q _ _, ?_⟩
    · rw [RegisterWithValidation_eq, hp]
      simp [hn, ht, hty, mapSet]
    · rw [hp]
      exact Get_mapSet_same _ _ _ _ _

/-- C4: `GetWithError` checks, in this order, the type, the name, the bucket and
the entry, and returns a nil factory with every error. -/
theorem getWithError_classification (plugins : Plugins) (typ name : String) :
    (typ = "" → GetWithError plugins typ name = (none, some .typeEmpty)) ∧
    (typ ≠ "" → name = "" → GetWithError plugins typ name = (none, some .nameEmpty)) ∧
    (typ ≠ "" → name ≠ "" → plugins typ = none →
      GetWithError plugins typ name = (none, some (.noPluginsForType typ))) ∧
    (typ ≠ "" → name ≠ "" → ∀ factories, plugins typ = some factories →
      factories name = none →
      GetWithError plugins typ name = (none, some (.notFound name typ))) ∧
    (typ ≠ "" → name ≠ "" → ∀ factories f, plugins typ = some factories →
      factories name = some f → GetWithError plugins typ name = (f, none)) ∧
    (∀ e, (GetWithError plugins typ name).2 = some e →
      (GetWithError plugins typ name).1 = none) ∧
    (∀ q : String → String,
      PluginError.Error q .typeEmpty = "plugin type cannot be empty" ∧
      PluginError.Error q .nameEmpty = "plugin name cannot be empty" ∧
      Mentions (PluginError.Error q (.noPluginsForType typ)) "no plugins registered" ∧
      Mentions (PluginError.Error q (.notFound name typ)) "not found" ∧
      PluginError.Error q (.notFound name typ) ≠
        PluginError.Error q (.noPluginsForType typ)) := by
  refine ⟨?_, ?_, ?_, ?_, ?_, ?_, ?_⟩
  · intro ht
    simp [GetWithError, ht]
  · intro ht hn
    simp [GetWithError, ht, hn]
  · intro ht hn hb
    simp [GetWithError, ht, hn, hb]
  · intro ht hn factories hb he
    simp [GetWithError, ht, hn, hb, he]
  · intro ht hn factories f hb he
    simp [GetWithError, ht, hn, hb, he]
  · intro e
    unfold GetWithError
    by_cases ht : typ = ""
    · simp [ht]
    · by_cases hn : name = ""
      · simp [ht, hn]
      · cases hb : plugins typ with
        | none => simp [ht, hn]
        | some factories =>
            cases he : factories name with
            | none => simp [ht, hn, he]
            | some f => simp [ht, hn, he]
  · intro q
    exact ⟨rfl, rfl, noPluginsForType_mentions q typ, notFound_mentions q name typ,
      notFound_ne_noPluginsForType q name typ typ⟩

/-- C5: `Register(name, f)` with a non-nil `f` changes `Get` at no key other
than `(f.Type(), name)`; from the empty registry the factory is found under
its own type and under no other category. -/
theorem register_frame (plugins : Plugins) (name : String) (f : Impl) :
    (∃ p1, Register plugins name (some f) = .ok p1 ∧
      ∀ c n, ¬ (c = f.typ ∧ n = name) → Get p1 c n = Get plugins c n) ∧
    (∃ p1, Register initPlugins name (some f) = .ok p1 ∧
      Get p1 f.typ name = some f ∧ ∀ c, c ≠ f.typ → Get p1 c name = none) := by
  refine ⟨⟨_, Register_some _ _ _, ?_⟩, ⟨_, Register_some _ _ _, ?_, ?_⟩⟩
  · intro c n h
    apply Get_mapSet_other _ _ _ _ _ _ _ _ _ h
    · intro hb
      simp [hb]
    · intro b hb
      simp [hb]
  · exact Get_mapSet_same _ _ _ _ _
  · intro c hc
    simp [Get, mapSet, hc, initPlugins, emptyMap]

/-- C6: when `RegisterWithValidation(name, f)` returns no error, `f` is a
non-nil factory and, on the registry it leaves, `GetWithError(f.Type(), name)`
is `(f, nil)` and `Get(f.Type(), name)` is `f`. -/
theorem registerWithValidation_visible (plugins plugins' : Plugins) (name : String)
    (f : Factory) (h : RegisterWithValidation plugins name f = .ok (plugins', none)) :
    ∃ impl, f = some impl ∧ f.callType = .ok impl.typ ∧
      GetWithError plugins' impl.typ name = (f, none) ∧
      Get plugins' impl.typ name = f := by
  obtain ⟨impl, hf, hn, hty, _, hp⟩ := RegisterWithValidation_ok _ _ _ _ h
  subst hf
  refine ⟨impl, rfl, rfl, ?_, ?_⟩
  · rw [hp]
    simp [GetWithError, hn, hty, mapSet]
  · rw [hp]
    exact Get_mapSet_same _ _ _ _ _

/-- C6, at the registration of the tests. -/
theorem registerWithValidation_visible_witness :
    ∃ impl : Impl, (some ⟨1, "pluginType"⟩ : Factory) = some impl ∧
      Factory.callType (some ⟨1, "pluginType"⟩) = .ok impl.typ ∧
      GetWithError (mapSet initPlugins "pluginType"
          (mapSet emptyMap "test-plugin-1" (some ⟨1, "pluginType"⟩)))
        impl.typ "test-plugin-1" = (some ⟨1, "pluginType"⟩, none) ∧
      Get (mapSet initPlugins "pluginType"
          (mapSet emptyMap "test-plugin-1" (some ⟨1, "pluginType"⟩)))
        impl.typ "test-plugin-1" = some ⟨1, "pluginType"⟩ :=
  registerWithValidation_visible initPlugins _ "test-plugin-1" (some ⟨1, "pluginType"⟩)
    (by rw [RegisterWithValidation_eq]; simp [initPlugins, emptyMap])

/-- C7: `RegisterWithValidation` reports the first failing check in the order
name, factory, type, duplicate: an empty name gives the empty-name error
whatever the factory; a nil factory under a non-empty name gives the
nil-factory error, returned and not a panic from `Type()`; a factory of empty
type gives the empty-type error also when its key is taken. -/
theorem registerWithValidation_check_order (plugins : Plugins) :
    (∀ f : Factory, RegisterWithValidation plugins "" f = .ok (plugins, some .nameEmpty)) ∧
    (∀ name, name ≠ "" →
      RegisterWithValidation plugins name none = .ok (plugins, some .factoryNil)) ∧
    (∀ name (f : Impl), name ≠ "" → f.typ = "" →
      RegisterWithValidation plugins name (some f) = .ok (plugins, some .typeEmpty)) ∧
    (∀ name (f g : Impl), name ≠ "" → f.typ = "" → g.typ = "" →
      ∃ p1, Register plugins name (some g) = .ok p1 ∧ HasEntry p1 "" name ∧
        RegisterWithValidation p1 name (some f) = .ok (p1, some .typeEmpty)) ∧
    (∀ (q : String → String) (name typ : String),
      PluginError.Error q .nameEmpty ≠ PluginError.Error q .factoryNil ∧
      PluginError.Error q .nameEmpty ≠ PluginError.Error q .typeEmpty ∧
      PluginError.Error q .factoryNil ≠ PluginError.Error q .typeEmpty ∧
      PluginError.Error q .typeEmpty ≠ PluginError.Error q (.alreadyRegistered name typ)) := by
  refine ⟨?_, ?_, ?_, ?_, ?_⟩
  · intro f
    rw [RegisterWithValidation_eq]
    simp
  · intro name hn
    rw [RegisterWithValidation_eq]
    simp [hn]
  · intro name f hn ht
    rw [RegisterWithValidation_eq]
    simp [hn, ht]
  · intro name f g hn hf hg
    refine ⟨_, Register_some _ _ _, ?_, ?_⟩
    · rw [hg]
      exact hasEntry_mapSet _ _ _ _ _
    · rw [RegisterWithValidation_eq]
      simp [hn, hf]
  · intro q name typ
    refine ⟨by simp [PluginError.Error], by simp [PluginError.Error],
      by simp [PluginError.Error], ?_⟩
    intro h
    have h' := congrArg String.data h
    have h'' := congrArg List.length h'
    simp [PluginError.Error, String.data_append] at h''
    omega

/-- C8: on a registry the program can be in, `Get(category, name)` is nil
exactly when the category has no bucket or the bucket has no entry for the
name, and is the stored factory otherwise; empty strings are not special. -/
theorem get_nil_iff_absent (plugins : Plugins) (h : Reachable plugins) (typ name : String) :
    (Get plugins typ name = none ↔
      (plugins typ = none ∨ ∃ factories, plugins typ = some factories ∧
        factories name = none)) ∧
    (∀ factories f, plugins typ = some factories → factories name = some f →
      Get plugins typ name = f ∧ f ≠ none) := by
  have hno := reachable_noNilStored h
  refine ⟨?_, ?_⟩
  · cases hb : plugins typ with
    | none => simp [Get, hb]
    | some factories =>
        cases he : factories name with
        | none => simp [Get, hb, he]
        | some f =>
            have hf : f ≠ none := by
              intro e
              subst e
              exact hno typ factories name hb he
            simp [Get, hb, he, hf]
  · intro factories f hb he
    refine ⟨by simp [Get, hb, he], ?_⟩
    intro e
    subst e
    exact hno typ factories name hb he

/-- C8, on the registry of `TestGet`: `pluginName` registered twice, then a
lookup in the category "notexist", which was never registered, gives nil. -/
theorem get_nil_iff_absent_witness :
    Get (mapSet (mapSet initPlugins "pluginType"
          (mapSet emptyMap "pluginName" (some ⟨1, "pluginType"⟩))) "pluginType"
        (mapSet (mapSet emptyMap "pluginName" (some ⟨1, "pluginType"⟩)) "pluginName"
          (some ⟨2, "pluginType"⟩))) "notexist" "pluginName" = none :=
  (get_nil_iff_absent _
    (Reachable.register "pluginName" (some ⟨2, "pluginType"⟩)
      (Reachable.register "pluginName" (some ⟨1, "pluginType"⟩) Reachable.init
        rfl)
      rfl)
    "notexist" "pluginName").1.mpr (Or.inl (by simp [mapSet, initPlugins, emptyMap]))

/-- C9: a call of `Get` or of `GetWithError` leaves the registry it found, a
miss in an unknown category makes no bucket, and the same lookup made any
number of times in a row gives the same reply each time. -/
theorem lookup_pure (plugins : Plugins) (typ name : String) (k : Nat) :
    call plugins (.get typ name) = .ok (plugins, .factory (Get plugins typ name)) ∧
    call plugins (.getWithError typ name) =
      .ok (plugins, .factoryError (GetWithError plugins typ name).1
        (GetWithError plugins typ name).2) ∧
    (∀ p1 reply, call plugins (.get typ name) = .ok (p1, reply) →
      ∀ c, HasBucket p1 c ↔ HasBucket plugins c) ∧
    (∀ p1 reply, call plugins (.getWithError typ name) = .ok (p1, reply) →
      ∀ c, HasBucket p1 c ↔ HasBucket plugins c) ∧
    callAll plugins (List.replicate k (.get typ name)) =
      .ok (plugins, List.replicate k (.factory (Get plugins typ name))) ∧
    callAll plugins (List.replicate k (.getWithError typ name)) =
      .ok (plugins, List.replicate k (.factoryError (GetWithError plugins typ name).1
        (GetWithError plugins typ name).2)) := by
  refine ⟨rfl, rfl, ?_, ?_, ?_, ?_⟩
  · intro p1 reply h c
    cases h
    exact Iff.rfl
  · intro p1 reply h c
    cases h
    exact Iff.rfl
  · induction k with
    | zero => rfl
    | succ k ih =>
        simp only [List.replicate_succ, callAll, call, bind, Except.bind, pure, Except.pure]
        rw [ih]
  · induction k with
    | zero => rfl
    | succ k ih =>
        simp only [List.replicate_succ, callAll, call, bind, Except.bind, pure, Except.pure]
        rw [ih]

/-- C10, counterexample: `Register` with the nil factory panics on
`f.Type()` and returns no registry. -/
theorem register_nil_panics :
    Register initPlugins "x" none = .error .nilDereference ∧
    ¬ ∃ p1, Register initPlugins "x" none = .ok p1 := by
  refine ⟨rfl, ?_⟩
  rintro ⟨p1, h⟩
  simp [Register, Factory.callType, bind, Except.bind] at h

/-- C10, amended: for every name, the empty one included, and every factory
whose call `f.Type()` returns a value `t`, the empty one included, `Register`
returns without a panic and the registry then holds the factory under
`(t, name)`. -/
theorem register_total_of_type_returns (plugins : Plugins) (name : String) (f : Factory)
    (t : String) (ht : f.callType = .ok t) :
    ∃ p1, Register plugins name f = .ok p1 ∧
      ∃ factories, p1 t = some factories ∧ factories name = some f := by
  cases f with
  | none => simp [Factory.callType] at ht
  | some impl =>
      simp [Factory.callType] at ht
      subst ht
      exact ⟨_, Register_some _ _ _, _, mapSet_same _ _ _, mapSet_same _ _ _⟩

/-- C10, amended, at the empty name and a factory of empty type. -/
theorem register_total_of_type_returns_witness :
    ∃ p1, Register initPlugins "" (some ⟨1, ""⟩) = .ok p1 ∧
      ∃ factories, p1 "" = some factories ∧ factories "" = some (some ⟨1, ""⟩) :=
  register_total_of_type_returns initPlugins "" (some ⟨1, ""⟩) "" rfl

/-- C11: the registry only grows.  Every call either is `Register` with the
nil factory, which panics before it writes, or returns and leaves every bucket
and every entry that was there; so does every run of calls that return. -/
theorem registry_only_grows (plugins : Plugins) :
    (∀ op : Op,
      (call plugins op = .error .nilDereference ∧ ∃ name, op = .register name none) ∨
      (∃ p1 reply, call plugins op = .ok (p1, reply) ∧
        (∀ c, HasBucket plugins c → HasBucket p1 c) ∧
        (∀ c n, HasEntry plugins c n → HasEntry p1 c n))) ∧
    (∀ (ops : List Op) (p2 : Plugins) (replies : List Reply),
      callAll plugins ops = .ok (p2, replies) →
        (∀ c, HasBucket plugins c → HasBucket p2 c) ∧
        (∀ c n, HasEntry plugins c n → HasEntry p2 c n)) := by
  refine ⟨?_, ?_⟩
  · intro op
    cases hc : call plugins op with
    | ok res =>
        obtain ⟨p1, reply⟩ := res
        exact Or.inr ⟨p1, reply, rfl, call_grows _ _ _ _ hc⟩
    | error e =>
        left
        cases e
        refine ⟨rfl, ?_⟩
        cases op with
        | register name f =>
            cases f with
            | none => exact ⟨name, rfl⟩
            | some impl =>
                simp [call, Register_some, bind, Except.bind, pure, Except.pure] at hc
        | registerWithValidation name f =>
            simp [call, RegisterWithValidation_eq, bind, Except.bind, pure, Except.pure] at hc
        | get typ name => simp [call, pure, Except.pure] at hc
        | getWithError typ name => simp [call, pure, Except.pure] at hc
  · intro ops
    induction ops generalizing plugins with
    | nil =>
        intro p2 replies h
        simp [callAll, pure, Except.pure] at h
        rw [← h.1]
        exact ⟨fun _ hc => hc, fun _ _ hc => hc⟩
    | cons op ops ih =>
        intro p2 replies h
        obtain ⟨p1, reply, rest, hc, hrest, _⟩ := callAll_cons_ok _ _ _ _ _ h
        have h1 := call_grows _ _ _ _ hc
        have h2 := ih p1 p2 rest hrest
        exact ⟨fun c hb => h2.1 c (h1.1 c hb), fun c n he => h2.2 c n (h1.2 c n he)⟩

/-- C12: in a run from the empty registry, a key that holds a factory at
some point holds the same factory after every later call, as long as the later
calls register only through `RegisterWithValidation` (lookups may come in
between); a best-effort `Register` on a key filled by a validated registration
replaces the factory. -/
theorem validated_first_wins (ops1 ops2 : List Op) (p1 p2 : Plugins)
    (replies1 replies2 : List Reply)
    (hv2 : ∀ op ∈ ops2, op.validating = true)
    (h1 : callAll initPlugins ops1 = .ok (p1, replies1))
    (h2 : callAll p1 ops2 = .ok (p2, replies2)) :
    (callAll initPlugins (ops1 ++ ops2) = .ok (p2, replies1 ++ replies2)) ∧
    (∀ c n f, Holds p1 c n f → Holds p2 c n f) ∧
    (∀ (name : String) (f g : Impl) (p3 : Plugins), f.typ = g.typ → f ≠ g →
      RegisterWithValidation p2 name (some f) = .ok (p3, none) →
      Holds p3 f.typ name (some f) ∧
      ∃ p4, Register p3 name (some g) = .ok p4 ∧
        Holds p4 f.typ name (some g) ∧ ¬ Holds p4 f.typ name (some f)) := by
  refine ⟨?_, callAll_validating_holds ops2 p1 p2 replies2 hv2 h2, ?_⟩
  · clear hv2
    generalize initPlugins = p0 at h1
    induction ops1 generalizing p0 replies1 with
    | nil =>
        simp [callAll, pure, Except.pure] at h1
        rw [h1.1, h1.2]
        simpa using h2
    | cons op ops ih =>
        obtain ⟨q, reply, rest, hc, hrest, hrep⟩ := callAll_cons_ok _ _ _ _ _ h1
        have := ih rest q hrest
        subst hrep
        simp [callAll, hc, this, bind, Except.bind, pure, Except.pure]
  · intro name f g p3 ht hne hr
    obtain ⟨impl, hf, _, _, _, hp⟩ := RegisterWithValidation_ok _ _ _ _ hr
    cases hf
    subst hp
    refine ⟨⟨_, mapSet_same _ _ _, mapSet_same _ _ _⟩, _, Register_some _ _ _, ?_, ?_⟩
    · rw [← ht]
      exact ⟨_, mapSet_same _ _ _, mapSet_same _ _ _⟩
    · rintro ⟨b, hb, hn⟩
      rw [← ht, mapSet_same] at hb
      cases hb
      rw [mapSet_same] at hn
      exact hne (Option.some.inj (Option.some.inj hn)).symm

/-- C12, on the run of the test "duplicate registration error": the second
validated registration of "test-plugin-2" fails and a lookup follows; the key
still holds the first factory. -/
theorem validated_first_wins_witness :
    Holds (mapSet (mapSet initPlugins "pluginType" emptyMap) "pluginType"
        (mapSet emptyMap "test-plugin-2" (some ⟨1, "pluginType"⟩)))
      "pluginType" "test-plugin-2" (some ⟨1, "pluginType"⟩) :=
  (validated_first_wins
    [.registerWithValidation "test-plugin-2" (some ⟨1, "pluginType"⟩)]
    [.registerWithValidation "test-plugin-2" (some ⟨2, "pluginType"⟩),
      .get "pluginType" "test-plugin-2"]
    (mapSet (mapSet initPlugins "pluginType" emptyMap) "pluginType"
        (mapSet emptyMap "test-plugin-2" (some ⟨1, "pluginType"⟩)))
    (mapSet (mapSet initPlugins "pluginType" emptyMap) "pluginType"
        (mapSet emptyMap "test-plugin-2" (some ⟨1, "pluginType"⟩)))
    [.error none]
    [.error (some (.alreadyRegistered "test-plugin-2" "pluginType")),
      .factory (some ⟨1, "pluginType"⟩)]
    (by decide) rfl rfl).2.1 "pluginType" "test-plugin-2" (some ⟨1, "pluginType"⟩)
    ⟨_, rfl, rfl⟩

/-- C15: on a registry the program can be in and for a non-empty category and
a non-empty name, `GetWithError` returns `(f, nil)` exactly when `Get` returns
the non-nil factory `f`, and returns an error exactly when `Get` returns nil. -/
theorem get_getWithError_agree (plugins : Plugins) (h : Reachable plugins)
    (typ name : String) (ht : typ ≠ "") (hn : name ≠ "") :
    (∀ f : Impl, GetWithError plugins typ name = (some f, none) ↔
      Get plugins typ name = some f) ∧
    ((GetWithError plugins typ name).2 ≠ none ↔ Get plugins typ name = none) := by
  have hno := reachable_noNilStored h
  cases hb : plugins typ with
  | none => simp [GetWithError, Get, ht, hn, hb]
  | some factories =>
      cases he : factories name with
      | none => simp [GetWithError, Get, ht, hn, hb, he]
      | some f =>
          cases f with
          | none => exact absurd he (hno typ factories name hb)
          | some impl => simp [GetWithError, Get, ht, hn, hb, he]

/-- C15, on the registry of the test "get existing plugin". -/
theorem get_getWithError_agree_witness :
    (∀ f : Impl,
      GetWithError (mapSet (mapSet initPlugins "pluginType" emptyMap) "pluginType"
          (mapSet emptyMap "test-get-plugin" (some ⟨1, "pluginType"⟩)))
        "pluginType" "test-get-plugin" = (some f, none) ↔
      Get (mapSet (mapSet initPlugins "pluginType" emptyMap) "pluginType"
          (mapSet emptyMap "test-get-plugin" (some ⟨1, "pluginType"⟩)))
        "pluginType" "test-get-plugin" = some f) ∧
    ((GetWithError (mapSet (mapSet initPlugins "pluginType" emptyMap) "pluginType"
          (mapSet emptyMap "test-get-plugin" (some ⟨1, "pluginType"⟩)))
        "pluginType" "test-get-plugin").2 ≠ none ↔
      Get (mapSet (mapSet initPlugins "pluginType" emptyMap) "pluginType"
          (mapSet emptyMap "test-get-plugin" (some ⟨1, "pluginType"⟩)))
        "pluginType" "test-get-plugin" = none) :=
  get_getWithError_agree _
    (Reachable.register "test-get-plugin" (some ⟨1, "pluginType"⟩) Reachable.init rfl)
    "pluginType" "test-get-plugin" (by decide) (by decide)

/-- C16: when `RegisterWithValidation(name, f)` returns no error, the registry
it leaves is the one `Register(name, f)` leaves from the same start; `Get` is
unchanged at every key other than `(f.Type(), name)`; and the same name can
then be registered under another type, after which each of the two keys holds
its own factory. -/
theorem registerWithValidation_refines_register (plugins p1 : Plugins) (name : String)
    (f : Factory) (h : RegisterWithValidation plugins name f = .ok (p1, none)) :
    Register plugins name f = .ok p1 ∧
    ∃ impl, f = some impl ∧
      (∀ c n, ¬ (c = impl.typ ∧ n = name) → Get p1 c n = Get plugins c n) ∧
      (∀ g : Impl, g.typ ≠ "" → g.typ ≠ impl.typ → ¬ HasEntry plugins g.typ name →
        ∃ p2, RegisterWithValidation p1 name (some g) = .ok (p2, none) ∧
          Get p2 g.typ name = some g ∧ Get p2 impl.typ name = some impl) := by
  obtain ⟨impl, hf, hn, hty, hfree, hp⟩ := RegisterWithValidation_ok _ _ _ _ h
  subst hf
  refine ⟨by rw [Register_some, hp], impl, rfl, ?_, ?_⟩
  · intro c n hcn
    rw [hp]
    apply Get_mapSet_other _ _ _ _ _ _ _ _ _ hcn
    · intro hb
      simp [hb]
    · intro b hb
      simp [hb]
  · intro g hg hgt hgfree
    have hp1g : p1 g.typ = plugins g.typ := by
      rw [hp]
      exact mapSet_other _ _ _ _ hgt
    have hstep : RegisterWithValidation p1 name (some g) =
        .ok (mapSet p1 g.typ (mapSet ((p1 g.typ).getD emptyMap) name (some g)), none) := by
      rw [RegisterWithValidation_eq]
      cases hb : plugins g.typ with
      | none => simp [hn, hg, hp1g, hb]
      | some b =>
          have : ¬ (b name).isSome = true := fun hs => hgfree ⟨b, hb, hs⟩
          simp [hn, hg, hp1g, hb, this]
    refine ⟨_, hstep, Get_mapSet_same _ _ _ _ _, ?_⟩
    have hne : ¬ (impl.typ = g.typ ∧ name = name) := fun e => hgt e.1.symm
    rw [Get_mapSet_other _ _ _ _ _ _ _ (by intro hb; simp [hb]) (by intro b hb; simp [hb]) hne,
      hp]
    exact Get_mapSet_same _ _ _ _ _

/-- C16, at a first validated registration into the empty registry. -/
theorem registerWithValidation_refines_register_witness :
    Register initPlugins "test-plugin-1" (some ⟨1, "pluginType"⟩) =
      .ok (mapSet (mapSet initPlugins "pluginType" emptyMap) "pluginType"
        (mapSet emptyMap "test-plugin-1" (some ⟨1, "pluginType"⟩))) :=
  (registerWithValidation_refines_register initPlugins _ "test-plugin-1"
    (some ⟨1, "pluginType"⟩) rfl).1

/-- C17: in a registry the program can be in, every factory stored in the
bucket of a category reports that category as its `Type()`, so neither `Get`
nor `GetWithError` returns a factory of another type. -/
theorem bucket_type_consistent (plugins : Plugins) (h : Reachable plugins) (c n : String) :
    (∀ factories (f : Impl), plugins c = some factories → factories n = some (some f) →
      f.typ = c) ∧
    (∀ f : Impl, Get plugins c n = some f → f.typ = c) ∧
    (∀ (f : Impl) (e : Option PluginError), GetWithError plugins c n = (some f, e) →
      f.typ = c) := by
  have hinv := (reachable_invariants h).1
  refine ⟨fun b f hb hf => hinv c b n f hb hf, ?_, ?_⟩
  · intro f hg
    cases hb : plugins c with
    | none => simp [Get, hb] at hg
    | some b =>
        cases he : b n with
        | none => simp [Get, hb, he] at hg
        | some g =>
            simp [Get, hb, he] at hg
            subst hg
            exact hinv c b n f hb he
  · intro f e hg
    unfold GetWithError at hg
    by_cases ht : c = ""
    · simp [ht] at hg
    · by_cases hn : n = ""
      · simp [ht, hn] at hg
      · cases hb : plugins c with
        | none => simp [ht, hn, hb] at hg
        | some b =>
            cases he : b n with
            | none => simp [ht, hn, hb, he] at hg
            | some g =>
                simp [ht, hn, hb, he] at hg
                obtain ⟨hg1, _⟩ := hg
                subst hg1
                exact hinv c b n f hb he

/-- C17, on the registry after one `Register` of the tests. -/
theorem bucket_type_consistent_witness :
    Get (mapSet (mapSet initPlugins "pluginType" emptyMap) "pluginType"
        (mapSet emptyMap "pluginName" (some ⟨1, "pluginType"⟩)))
      "pluginType" "pluginName" = some ⟨1, "pluginType"⟩ ∧
    Impl.typ ⟨1, "pluginType"⟩ = "pluginType" :=
  ⟨rfl, (bucket_type_consistent _
    (Reachable.register "pluginName" (some ⟨1, "pluginType"⟩) Reachable.init rfl)
    "pluginType" "pluginName").2.1 ⟨1, "pluginType"⟩ rfl⟩

/-- C18: after any run of calls from the empty registry, failing ones
included, every bucket has at least one entry; so for a non-empty category
and a non-empty name `GetWithError` gives the no-plugins-registered error
exactly when no name has an entry under the category. -/
theorem no_empty_bucket (ops : List Op) (plugins : Plugins) (replies : List Reply)
    (h : callAll initPlugins ops = .ok (plugins, replies)) :
    (∀ typ factories, plugins typ = some factories →
      ∃ name, (factories name).isSome = true) ∧
    (∀ typ name, typ ≠ "" → name ≠ "" →
      ((GetWithError plugins typ name).2 = some (.noPluginsForType typ) ↔
        ∀ n, ¬ HasEntry plugins typ n)) := by
  have hinv := (reachable_invariants (callAll_reachable ops _ _ _ Reachable.init h)).2
  refine ⟨hinv, ?_⟩
  intro typ name ht hn
  cases hb : plugins typ with
  | none => simp [GetWithError, ht, hn, hb, HasEntry]
  | some b =>
      obtain ⟨m, hm⟩ := hinv typ b hb
      have hex : ¬ ∀ n, ¬ HasEntry plugins typ n := fun hall => hall m ⟨b, hb, hm⟩
      cases he : b name with
      | none => simp [GetWithError, ht, hn, hb, he, hex]
      | some f => simp [GetWithError, ht, hn, hb, he, hex]

/-- C18, on a run with a failing validated registration and two lookups
before the first entry is written. -/
theorem no_empty_bucket_witness :
    (∀ typ factories,
      (mapSet (mapSet initPlugins "pluginType" emptyMap) "pluginType"
        (mapSet emptyMap "pluginName" (some ⟨1, "pluginType"⟩))) typ = some factories →
      ∃ name, (factories name).isSome = true) ∧
    (∀ typ name, typ ≠ "" → name ≠ "" →
      ((GetWithError (mapSet (mapSet initPlugins "pluginType" emptyMap) "pluginType"
          (mapSet emptyMap "pluginName" (some ⟨1, "pluginType"⟩))) typ name).2 =
          some (.noPluginsForType typ) ↔
        ∀ n, ¬ HasEntry (mapSet (mapSet initPlugins "pluginType" emptyMap) "pluginType"
          (mapSet emptyMap "pluginName" (some ⟨1, "pluginType"⟩))) typ n)) :=
  no_empty_bucket
    [.registerWithValidation "" (some ⟨1, "pluginType"⟩),
      .getWithError "pluginType" "pluginName",
      .get "pluginType" "pluginName",
      .register "pluginName" (some ⟨1, "pluginType"⟩)]
    _
    [.error (some .nameEmpty),
      .factoryError none (some (.noPluginsForType "pluginType")),
      .factory none, .done]
    rfl

/-- C19, counterexample: after `Register("", g)` with `g.Type()` empty,
`Get("", "")` is `g` and `GetWithError("", "")` fails with the empty-type error,
not with the empty-name error: the type is checked first. -/
theorem empty_type_checked_before_empty_name :
    ∃ p1, Register initPlugins "" (some ⟨1, ""⟩) = .ok p1 ∧
      Get p1 "" "" = some ⟨1, ""⟩ ∧
      GetWithError p1 "" "" = (none, some .typeEmpty) ∧
      GetWithError p1 "" "" ≠ (none, some .nameEmpty) := by
  refine ⟨_, Register_some _ _ _, Get_mapSet_same _ _ _ _ _, ?_, ?_⟩ <;>
    simp [GetWithError]

/-- C19, amended: some registered factories are found by `Get` and not by
`GetWithError`.  After `Register(name, f)` with `f.Type()` empty, `Get("",
name)` is `f` and `GetWithError("", name)` fails with the empty-type error;
after `Register("", g)` with `g.Type() = t` not empty, `Get(t, "")` is `g` and
`GetWithError(t, "")` fails with the empty-name error.  The registries are
ones the program can be in. -/
theorem empty_identifier_only_best_effort :
    (∀ (plugins : Plugins) (name : String) (f : Impl), f.typ = "" →
      ∃ p1, Register plugins name (some f) = .ok p1 ∧ (Reachable plugins → Reachable p1) ∧
        Get p1 "" name = some f ∧ GetWithError p1 "" name = (none, some .typeEmpty)) ∧
    (∀ (plugins : Plugins) (g : Impl), g.typ ≠ "" →
      ∃ p1, Register plugins "" (some g) = .ok p1 ∧ (Reachable plugins → Reachable p1) ∧
        Get p1 g.typ "" = some g ∧ GetWithError p1 g.typ "" = (none, some .nameEmpty)) ∧
    (∃ (p1 : Plugins) (typ name : String) (f : Impl), Reachable p1 ∧
      Get p1 typ name = some f ∧
      (GetWithError p1 typ name).1 = none ∧ (GetWithError p1 typ name).2 ≠ none) := by
  refine ⟨?_, ?_, ?_⟩
  · intro plugins name f hf
    refine ⟨_, Register_some _ _ _,
      fun hr => Reachable.register name (some f) hr (Register_some _ _ _), ?_, ?_⟩
    · rw [hf]
      exact Get_mapSet_same _ _ _ _ _
    · simp [GetWithError]
  · intro plugins g hg
    refine ⟨_, Register_some _ _ _,
      fun hr => Reachable.register "" (some g) hr (Register_some _ _ _),
      Get_mapSet_same _ _ _ _ _, ?_⟩
    simp [GetWithError, hg]
  · refine ⟨_, "", "x", ⟨1, ""⟩,
      Reachable.register "x" (some ⟨1, ""⟩) Reachable.init (Register_some _ _ _), ?_, ?_, ?_⟩
    · exact Get_mapSet_same _ _ _ _ _
    · simp [GetWithError]
    · simp [GetWithError]

end Plugin

namespace Codec

/-- C13: after codec `Register(name, enc, dec)`, which returns no error, the
four lookups of `name` return the registered pair with no error, and the
server view and the client view are the same pair; so for the name "fake"
with one value as encoder and decoder. -/
theorem codec_register_roundtrip (codecs : Codecs) (name : String) (enc dec : Handler) :
    (Register codecs name enc dec).2 = none ∧
    GetServer (Register codecs name enc dec).1 name = (some ⟨enc, dec⟩, none) ∧
    GetClient (Register codecs name enc dec).1 name = (some ⟨enc, dec⟩, none) ∧
    GetServerWithError (Register codecs name enc dec).1 name = (some ⟨enc, dec⟩, none) ∧
    GetClientWithError (Register codecs name enc dec).1 name = (some ⟨enc, dec⟩, none) ∧
    (GetServer (Register codecs name enc dec).1 name).1 =
      (GetClient (Register codecs name enc dec).1 name).1 ∧
    GetServer (Register initCodecs "fake" ⟨1⟩ ⟨1⟩).1 "fake" = (some ⟨⟨1⟩, ⟨1⟩⟩, none) ∧
    GetClient (Register initCodecs "fake" ⟨1⟩ ⟨1⟩).1 "fake" = (some ⟨⟨1⟩, ⟨1⟩⟩, none) := by
  refine ⟨rfl, ?_, ?_, ?_, ?_, rfl, ?_, ?_⟩ <;>
    simp [Register, GetServer, GetClient, GetServerWithError, GetClientWithError,
      Plugin.mapSet]

end Codec
